import Mathlib

/-!
Verification development for the tycoon game client.

Shallow embedding of the game's data model and operations:
`Tree` (resource entity with harvest reservation and health),
`Worker` inventory handling, the pathfinding grid rebuild of
`MainScene`, worker stuck-detection in `WorkerManager`,
persisted-state reload in `WorkerManager` / `BuildingManager`,
`setPath` of the player and of workers, and `PlayerInventory`.

Numbers are modelled as `Int` (game quantities are integral in all code
paths under study); `Map`s with `get(k) || 0` access are modelled as
total functions with explicit per-key fields; JS `null` is `Option.none`.
Mutation is modelled by explicit state passing: each method becomes a
function from the receiver (and arguments) to the result value and the
updated receiver.
-/

namespace Game

/-- Tree.config fields (part_004): respawnTime, woodValue, maxHealth,
damagePerHit; defaults 60000 / 3 / 100 / 25 set in the constructor. -/
structure TreeConfig where
  respawnTime : Int
  woodValue : Int
  maxHealth : Int
  damagePerHit : Int
deriving Repr, DecidableEq

/-- The default configuration assigned in the `Tree` constructor. -/
def defaultTreeConfig : TreeConfig :=
  { respawnTime := 60000, woodValue := 3, maxHealth := 100, damagePerHit := 25 }

/-- State of a `Tree` entity (part_004): world position, destruction flag,
hit-in-progress flag, current harvest reservation (JS `null` ↦ `none`,
harvesters identified by a `Nat` id), current health and configuration. -/
structure Tree where
  x : Int
  y : Int
  isDestroyed : Bool
  isBeingHit : Bool
  currentHarvester : Option Nat
  currentHealth : Int
  config : TreeConfig
deriving Repr, DecidableEq

/-- Models `Tree.isAvailableForHarvest(harvester)`: not destroyed, not being hit,
and unreserved or reserved by `harvester` itself. -/
def Tree.isAvailableForHarvest (t : Tree) (harvester : Nat) : Bool :=
  !t.isDestroyed && !t.isBeingHit &&
    (t.currentHarvester == none || t.currentHarvester == some harvester)

/-- Models `Tree.setHarvester(harvester)`: claims the reservation when available,
returning success and the updated tree. -/
def Tree.setHarvester (t : Tree) (harvester : Nat) : Bool × Tree :=
  if t.isAvailableForHarvest harvester then
    (true, { t with currentHarvester := some harvester })
  else
    (false, t)

/-- Models `Tree.releaseHarvester()`: clears the reservation unconditionally. -/
def Tree.releaseHarvester (t : Tree) : Tree :=
  { t with currentHarvester := none }

/-- Models `Tree.cleanup()` as far as harvest state is concerned: releases the
reservation when one is held (visual effects and the respawn timer are not
part of the reservation state). -/
def Tree.cleanup (t : Tree) : Tree :=
  if t.currentHarvester.isSome then t.releaseHarvester else t

/-- Models `Tree.workerHarvest(worker)`: rejects when destroyed, being hit, or the
reservation is not held by `worker`; otherwise subtracts `damagePerHit`
and, when health has dropped to ≤ 0 (and the tree was not already
destroyed), sets `isDestroyed` and runs `cleanup`, resolving `true`;
non-destroying hits resolve `false`. -/
def Tree.workerHarvest (t : Tree) (worker : Nat) : Bool × Tree :=
  if t.isDestroyed || t.isBeingHit || t.currentHarvester != some worker then
    (false, t)
  else
    let t1 : Tree := { t with currentHealth := t.currentHealth - t.config.damagePerHit }
    if t1.currentHealth ≤ 0 && !t1.isDestroyed then
      (true, Tree.cleanup { t1 with isDestroyed := true })
    else
      (false, t1)

/-- Repeated `workerHarvest` by the same worker: state after `n` calls. -/
def Tree.workerHarvestIter (t : Tree) (worker : Nat) : Nat → Tree
  | 0 => t
  | n + 1 => ((Tree.workerHarvestIter t worker n).workerHarvest worker).2

/-- A reservation-relevant call on one `Tree`. -/
inductive HarvestEvent where
  | set (requester : Nat)
  | release
deriving Repr, DecidableEq

/-- Effect of one `setHarvester` / `releaseHarvester` call on a tree. -/
def Tree.execEvent (t : Tree) : HarvestEvent → Tree
  | .set r => (t.setHarvester r).2
  | .release => t.releaseHarvester

/-- Effect of a sequence of reservation calls. -/
def Tree.execEvents (t : Tree) (es : List HarvestEvent) : Tree :=
  es.foldl Tree.execEvent t

/-- Harvester `h` holds the reservation on `t`. -/
def Tree.holdsReservation (t : Tree) (h : Nat) : Prop :=
  t.currentHarvester = some h

/-- An unreserved, undamaged tree with the default configuration. -/
def freshTree : Tree :=
  { x := 0, y := 0, isDestroyed := false, isBeingHit := false,
    currentHarvester := none, currentHealth := 100, config := defaultTreeConfig }

/-- A full-health tree whose reservation is held by harvester 7. -/
def lumberTestTree : Tree :=
  { x := 0, y := 0, isDestroyed := false, isBeingHit := false,
    currentHarvester := some 7, currentHealth := 100, config := defaultTreeConfig }

/-- Claim C1: harvest reservation exclusivity. `setHarvester(requester)`
returns true (and assigns the reservation to `requester`) iff the tree is
not destroyed, not being hit, and unreserved or already reserved by
`requester`; `releaseHarvester()` clears the reservation unconditionally;
and over every sequence of `setHarvester` / `releaseHarvester` calls, at
most one harvester holds the reservation at any time. -/
theorem C1_reservation_exclusivity :
    (∀ (t : Tree) (r : Nat),
      (t.setHarvester r).1 = true ↔
        (t.isDestroyed = false ∧ t.isBeingHit = false ∧
          (t.currentHarvester = none ∨ t.currentHarvester = some r)))
    ∧ (∀ (t : Tree) (r : Nat), (t.setHarvester r).1 = true →
        (t.setHarvester r).2.currentHarvester = some r)
    ∧ (∀ t : Tree, t.releaseHarvester.currentHarvester = none)
    ∧ (∀ (t : Tree) (es : List HarvestEvent) (a b : Nat),
        (t.execEvents es).holdsReservation a → (t.execEvents es).holdsReservation b →
          a = b) := by
  refine ⟨?_, ?_, ?_, ?_⟩
  · intro t r
    by_cases hc : t.isAvailableForHarvest r
    · have hc1 := hc
      unfold Tree.isAvailableForHarvest at hc1
      simp only [Bool.and_eq_true, Bool.not_eq_true', Bool.or_eq_true, beq_iff_eq] at hc1
      simp [Tree.setHarvester, hc, hc1.1.1, hc1.1.2, hc1.2]
    · have hc1 := hc
      unfold Tree.isAvailableForHarvest at hc1
      simp only [Bool.and_eq_true, Bool.not_eq_true', Bool.or_eq_true, beq_iff_eq] at hc1
      simp only [Tree.setHarvester, if_neg hc]
      constructor
      · intro hfalse; exact absurd hfalse (by simp)
      · intro hP; exact absurd ⟨⟨hP.1, hP.2.1⟩, hP.2.2⟩ hc1
  · intro t r h
    by_cases hc : t.isAvailableForHarvest r
    · simp [Tree.setHarvester, hc]
    · simp [Tree.setHarvester, hc] at h
  · intro t; rfl
  · intro t es a b ha hb
    exact Option.some.inj ((Tree.holdsReservation.eq_1 .. ▸ ha).symm.trans
      (Tree.holdsReservation.eq_1 .. ▸ hb))

/-- Witness for C1 at a concrete input: a fresh tree grants the
reservation to harvester 5 and records it. -/
theorem C1_reservation_exclusivity_witness :
    (freshTree.setHarvester 5).1 = true ∧
      (freshTree.setHarvester 5).2.currentHarvester = some 5 :=
  ⟨(C1_reservation_exclusivity.1 freshTree 5).mpr (by decide),
    C1_reservation_exclusivity.2.1 freshTree 5
      ((C1_reservation_exclusivity.1 freshTree 5).mpr (by decide))⟩

/-- Claim C3: with `maxHealth = 100` and `damagePerHit = 25`, exactly 4
hits by the reserving worker bring the tree from full health to 0 and set
`isDestroyed`; after 3 hits it is still standing at health 25; and once
`isDestroyed` holds, `workerHarvest` resolves `false` immediately,
leaving the tree unchanged (no health decrement). -/
theorem C3_tree_destruction_hit_count :
    (lumberTestTree.workerHarvestIter 7 3).currentHealth = 25
    ∧ (lumberTestTree.workerHarvestIter 7 3).isDestroyed = false
    ∧ ((lumberTestTree.workerHarvestIter 7 3).workerHarvest 7).1 = true
    ∧ (lumberTestTree.workerHarvestIter 7 4).currentHealth = 0
    ∧ (lumberTestTree.workerHarvestIter 7 4).isDestroyed = true
    ∧ (∀ (t : Tree) (w : Nat), t.isDestroyed = true → t.workerHarvest w = (false, t)) := by
  refine ⟨by decide, by decide, by decide, by decide, by decide, ?_⟩
  intro t w h
  unfold Tree.workerHarvest
  simp [h]

/-- Witness for C3 at a concrete input: the 5th hit on the destroyed tree
resolves `false` and changes nothing. -/
theorem C3_tree_destruction_hit_count_witness :
    (lumberTestTree.workerHarvestIter 7 4).workerHarvest 7 =
      (false, lumberTestTree.workerHarvestIter 7 4) :=
  C3_tree_destruction_hit_count.2.2.2.2.2 (lumberTestTree.workerHarvestIter 7 4) 7 (by decide)

/-- Worker states (Worker.tsx / part_005 `WorkerState` enum). -/
inductive WorkerState where
  | idle
  | movingToResource
  | harvesting
  | movingToStorage
  | depositing
deriving Repr, DecidableEq

/-- Worker-side resource type (`type ResourceType = 'wood'|'stone'|'food'`). -/
inductive WorkerResourceType where
  | wood
  | stone
  | food
deriving Repr, DecidableEq

/-- The worker's `Map<ResourceType, number>` inventory; `get(k) || 0`
access makes it a total per-key record. -/
structure WorkerInventoryMap where
  wood : Int
  stone : Int
  food : Int
deriving Repr, DecidableEq

/-- Models `inventory.get(type) || 0`. -/
def WorkerInventoryMap.get (m : WorkerInventoryMap) : WorkerResourceType → Int
  | .wood => m.wood
  | .stone => m.stone
  | .food => m.food

/-- Models `inventory.set(type, v)`. -/
def WorkerInventoryMap.set (m : WorkerInventoryMap) :
    WorkerResourceType → Int → WorkerInventoryMap
  | .wood, v => { m with wood := v }
  | .stone, v => { m with stone := v }
  | .food, v => { m with food := v }

/-- Sum of the map's values (`getInventoryTotal`'s forEach accumulation). -/
def WorkerInventoryMap.total (m : WorkerInventoryMap) : Int :=
  m.wood + m.stone + m.food

/-- A path waypoint in tile coordinates (`PathNode`). -/
structure PathNode where
  x : Int
  y : Int
deriving Repr, DecidableEq

/-- Worker entity state (Worker.tsx / part_005): position, inventory with
its `config.maxInventory` cap, the movement path with its cursor, the
state-machine state, the targeted resource/storage and the current timer
task (modelled by its presence). -/
structure Worker where
  x : Int
  y : Int
  maxInventory : Int
  inventory : WorkerInventoryMap
  state : WorkerState
  targetResource : Option Tree
  targetStorage : Option Nat
  currentTask : Option Nat
  path : List PathNode
  currentTargetIndex : Nat
deriving Repr, DecidableEq

/-- Models `Worker.getInventoryTotal()`. -/
def Worker.getInventoryTotal (w : Worker) : Int := w.inventory.total

/-- Models `Worker.addToInventory(type, amount)`: clamps the added amount to the
available space and returns it together with the updated worker. -/
def Worker.addToInventory (w : Worker) (ty : WorkerResourceType) (amount : Int) :
    Int × Worker :=
  let currentAmount := w.inventory.get ty
  let availableSpace := w.maxInventory - w.getInventoryTotal
  let canAdd := min amount availableSpace
  if canAdd > 0 then
    (canAdd, { w with inventory := w.inventory.set ty (currentAmount + canAdd) })
  else
    (canAdd, w)

/-- A freshly constructed Lumberjack (Lumberjack.ts constructor):
`maxInventory = 10`, inventory initialised with `wood ↦ 0`, idle. -/
def lumberjackWorker (x y : Int) : Worker :=
  { x := x, y := y, maxInventory := 10, inventory := ⟨0, 0, 0⟩, state := .idle,
    targetResource := none, targetStorage := none, currentTask := none,
    path := [], currentTargetIndex := 0 }

/-- The Lumberjack's `woodPerTree` configuration value. -/
def lumberjackWoodPerTree : Int := 3

/-- Total of the inventory map after a `set`. -/
theorem WorkerInventoryMap.total_set (m : WorkerInventoryMap)
    (ty : WorkerResourceType) (v : Int) :
    (m.set ty v).total = m.total - m.get ty + v := by
  cases ty <;>
    simp [WorkerInventoryMap.set, WorkerInventoryMap.get, WorkerInventoryMap.total] <;>
    ring

/-- Claim C2 as stated is false: for a negative `amount` the returned
value is negative (it equals `min(amount, space)`) while the inventory is
left unchanged, so the total after the call differs from the total before
plus the returned value. Concretely, a fresh Lumberjack and `amount = -1`. -/
theorem C2_inventory_clamping_counterexample :
    ((lumberjackWorker 0 0).addToInventory .wood (-1)).1 =
      min (-1) ((lumberjackWorker 0 0).maxInventory -
        (lumberjackWorker 0 0).getInventoryTotal)
    ∧ ((lumberjackWorker 0 0).addToInventory .wood (-1)).2.getInventoryTotal ≠
      (lumberjackWorker 0 0).getInventoryTotal +
        ((lumberjackWorker 0 0).addToInventory .wood (-1)).1 := by
  decide

/-- Claim C2, amended: for every call with a non-negative `amount` from a
state whose total does not exceed `maxInventory`, the returned value is
`min(amount, maxInventory - total)`, the new total is the old total plus
the returned value, and the total stays ≤ `maxInventory`; in particular a
Lumberjack (capacity 10) holding 9 wood after three adds of 3 gains only 1
from a fourth add of 3, capping at 10. -/
theorem C2_inventory_clamping_amended :
    (∀ (w : Worker) (ty : WorkerResourceType) (amount : Int),
      0 ≤ amount → w.getInventoryTotal ≤ w.maxInventory →
        (w.addToInventory ty amount).1 = min amount (w.maxInventory - w.getInventoryTotal)
        ∧ (w.addToInventory ty amount).2.getInventoryTotal
            = w.getInventoryTotal + (w.addToInventory ty amount).1
        ∧ (w.addToInventory ty amount).2.getInventoryTotal ≤ w.maxInventory)
    ∧ ((((lumberjackWorker 0 0).addToInventory .wood 3).2.addToInventory
        .wood 3).2.addToInventory .wood 3).2.getInventoryTotal = 9
    ∧ (((((lumberjackWorker 0 0).addToInventory .wood 3).2.addToInventory
        .wood 3).2.addToInventory .wood 3).2.addToInventory .wood 3).1 = 1
    ∧ (((((lumberjackWorker 0 0).addToInventory .wood 3).2.addToInventory
        .wood 3).2.addToInventory .wood 3).2.addToInventory .wood 3).2.getInventoryTotal
        = 10 := by
  refine ⟨?_, by decide, by decide, by decide⟩
  intro w ty amount hamt htot
  have hspace : 0 ≤ w.maxInventory - w.getInventoryTotal := by omega
  have hmin : 0 ≤ min amount (w.maxInventory - w.getInventoryTotal) := le_min hamt hspace
  have hE : w.addToInventory ty amount =
      (if 0 < min amount (w.maxInventory - w.getInventoryTotal) then
        (min amount (w.maxInventory - w.getInventoryTotal),
          { w with inventory := (w.inventory.set ty (w.inventory.get ty +
              min amount (w.maxInventory - w.getInventoryTotal))) })
      else (min amount (w.maxInventory - w.getInventoryTotal), w)) := rfl
  rw [hE]
  split
  · rename_i hpos
    refine ⟨rfl, ?_, ?_⟩
    · simp only [Worker.getInventoryTotal, WorkerInventoryMap.total_set]
      ring
    · simp only [Worker.getInventoryTotal, WorkerInventoryMap.total_set]
      have hle : min amount (w.maxInventory - w.inventory.total) ≤
          w.maxInventory - w.inventory.total := min_le_right _ _
      simp only [Worker.getInventoryTotal] at hmin
      omega
  · rename_i hpos
    have hz : min amount (w.maxInventory - w.getInventoryTotal) = 0 :=
      le_antisymm (not_lt.mp hpos) hmin
    refine ⟨rfl, ?_, ?_⟩
    · simp [hz]
    · simpa using htot

/-- Witness for the amended C2 at a concrete input: adding 3 wood to a
fresh Lumberjack returns `min 3 10` and the total follows. -/
theorem C2_inventory_clamping_amended_witness :
    ((lumberjackWorker 0 0).addToInventory .wood 3).1 =
      min 3 ((lumberjackWorker 0 0).maxInventory - (lumberjackWorker 0 0).getInventoryTotal)
    ∧ ((lumberjackWorker 0 0).addToInventory .wood 3).2.getInventoryTotal
        = (lumberjackWorker 0 0).getInventoryTotal +
          ((lumberjackWorker 0 0).addToInventory .wood 3).1
    ∧ ((lumberjackWorker 0 0).addToInventory .wood 3).2.getInventoryTotal ≤
        (lumberjackWorker 0 0).maxInventory :=
  C2_inventory_clamping_amended.1 (lumberjackWorker 0 0) .wood 3 (by decide) (by decide)

/-- Global resource types (`ResourceType` enum, part_008). -/
inductive ResourceType where
  | wood
  | stone
  | food
  | planks
  | tools
  | metal
deriving Repr, DecidableEq

/-- Models `ResourceManager.getMaxStackSize`: the `stackSize` of each registered
resource definition (part_007). -/
def getMaxStackSize : ResourceType → Int
  | .wood => 100
  | .stone => 50
  | .food => 20
  | .planks => 50
  | .tools => 10
  | .metal => 30

/-- The player's global inventory: a `Map<ResourceType, number>` with all
keys initialised, hence a total function. -/
structure PlayerInventory where
  resources : ResourceType → Int

/-- Models `PlayerInventory.addResource(type, amount)`: returns 0 for
non-positive amounts, otherwise adds up to the resource's max stack. -/
def PlayerInventory.addResource (p : PlayerInventory) (ty : ResourceType)
    (amount : Int) : Int × PlayerInventory :=
  if amount ≤ 0 then (0, p)
  else
    let currentAmount := p.resources ty
    let maxStack := getMaxStackSize ty
    let canAdd := min amount (maxStack - currentAmount)
    if canAdd > 0 then
      (canAdd, ⟨fun t => if t = ty then currentAmount + canAdd else p.resources t⟩)
    else
      (canAdd, p)

/-- Models `PlayerInventory.removeResource(type, amount)`: returns 0 for
non-positive amounts, otherwise removes up to the stored amount. -/
def PlayerInventory.removeResource (p : PlayerInventory) (ty : ResourceType)
    (amount : Int) : Int × PlayerInventory :=
  if amount ≤ 0 then (0, p)
  else
    let currentAmount := p.resources ty
    let canRemove := min amount currentAmount
    if canRemove > 0 then
      (canRemove, ⟨fun t => if t = ty then currentAmount - canRemove else p.resources t⟩)
    else
      (canRemove, p)

/-- An empty player inventory. -/
def emptyPlayerInventory : PlayerInventory := ⟨fun _ => 0⟩

/-- Claim C10: non-positive amounts are no-ops. `addResource` and
`removeResource` return 0 and leave the whole inventory untouched when
`amount ≤ 0`. -/
theorem C10_nonpositive_amounts_noop
    (p : PlayerInventory) (ty : ResourceType) (amount : Int) (h : amount ≤ 0) :
    p.addResource ty amount = (0, p) ∧ p.removeResource ty amount = (0, p) := by
  constructor
  · simp only [PlayerInventory.addResource, if_pos h]
  · simp only [PlayerInventory.removeResource, if_pos h]

/-- Witness for C10 at a concrete input: `amount = -2` on the empty
inventory. -/
theorem C10_nonpositive_amounts_noop_witness :
    emptyPlayerInventory.addResource .wood (-2) = (0, emptyPlayerInventory)
    ∧ emptyPlayerInventory.removeResource .wood (-2) = (0, emptyPlayerInventory) :=
  C10_nonpositive_amounts_noop emptyPlayerInventory .wood (-2) (by decide)

/-- Player agent state relevant to `setPath` (Player.ts). -/
structure Player where
  x : Int
  y : Int
  path : List PathNode
  currentTargetIndex : Nat
deriving Repr, DecidableEq

/-- Models `Player.setPath(path)`: drops the first waypoint when it equals the
player's current tile `(floor(x/16), floor(y/16))`, then stores the path
and resets the cursor. -/
def Player.setPath (p : Player) (path : List PathNode) : Player :=
  let path1 :=
    match path with
    | [] => path
    | first :: rest =>
        if first.x = p.x.fdiv 16 ∧ first.y = p.y.fdiv 16 then rest else path
  { p with path := path1, currentTargetIndex := 0 }

/-- Models `Worker.getCurrentTilePosition()`. -/
def Worker.getCurrentTilePosition (w : Worker) : Int × Int :=
  (w.x.fdiv 16, w.y.fdiv 16)

/-- Models `Worker.setPath(path)`: same first-waypoint drop as the player, then a
defensive copy of the path is stored and the cursor reset. -/
def Worker.setPath (w : Worker) (path : List PathNode) : Worker :=
  let path1 :=
    match path with
    | [] => path
    | firstTile :: rest =>
        if firstTile.x = (w.getCurrentTilePosition).1 ∧
            firstTile.y = (w.getCurrentTilePosition).2 then rest
        else path
  { w with path := path1, currentTargetIndex := 0 }

/-- Claim C8: for a non-empty path whose first waypoint equals the agent's
current tile, `setPath` stores the tail and resets the cursor; otherwise
the path is stored unmodified with the cursor reset — and the player agent
and workers treat the same input identically. -/
theorem C8_setPath_first_waypoint_drop :
    (∀ (p : Player) (first : PathNode) (rest : List PathNode),
      (first.x = p.x.fdiv 16 ∧ first.y = p.y.fdiv 16 →
        (p.setPath (first :: rest)).path = rest
          ∧ (p.setPath (first :: rest)).currentTargetIndex = 0)
      ∧ (¬(first.x = p.x.fdiv 16 ∧ first.y = p.y.fdiv 16) →
        (p.setPath (first :: rest)).path = first :: rest
          ∧ (p.setPath (first :: rest)).currentTargetIndex = 0))
    ∧ (∀ (w : Worker) (first : PathNode) (rest : List PathNode),
      (first.x = w.x.fdiv 16 ∧ first.y = w.y.fdiv 16 →
        (w.setPath (first :: rest)).path = rest
          ∧ (w.setPath (first :: rest)).currentTargetIndex = 0)
      ∧ (¬(first.x = w.x.fdiv 16 ∧ first.y = w.y.fdiv 16) →
        (w.setPath (first :: rest)).path = first :: rest
          ∧ (w.setPath (first :: rest)).currentTargetIndex = 0))
    ∧ (∀ (p : Player) (w : Worker), p.x = w.x → p.y = w.y →
        ∀ path : List PathNode,
          (p.setPath path).path = (w.setPath path).path
          ∧ (p.setPath path).currentTargetIndex = (w.setPath path).currentTargetIndex) := by
  refine ⟨?_, ?_, ?_⟩
  · intro p first rest
    constructor
    · intro h; simp [Player.setPath, h]
    · intro h; simp [Player.setPath, if_neg h]
  · intro w first rest
    constructor
    · intro h; simp [Worker.setPath, Worker.getCurrentTilePosition, h]
    · intro h; simp [Worker.setPath, Worker.getCurrentTilePosition, if_neg h]
  · intro p w hx hy path
    cases path with
    | nil => simp [Player.setPath, Worker.setPath]
    | cons first rest =>
        by_cases h : first.x = p.x.fdiv 16 ∧ first.y = p.y.fdiv 16
        · simp [Player.setPath, Worker.setPath, Worker.getCurrentTilePosition,
            h, hx ▸ h.1, hy ▸ h.2, ← hx, ← hy]
        · rw [hx, hy] at h
          simp [Player.setPath, Worker.setPath, Worker.getCurrentTilePosition,
            ← hx, ← hy, if_neg h]

/-- Witness for C8 at a concrete input: an agent at world (8, 8) — tile
(0, 0) — given path [(0,0), (1,0)] stores [(1,0)] with cursor 0. -/
theorem C8_setPath_first_waypoint_drop_witness :
    (Player.setPath ⟨8, 8, [], 3⟩ [⟨0, 0⟩, ⟨1, 0⟩]).path = [(⟨1, 0⟩ : PathNode)]
    ∧ (Player.setPath ⟨8, 8, [], 3⟩ [⟨0, 0⟩, ⟨1, 0⟩]).currentTargetIndex = 0 :=
  (C8_setPath_first_waypoint_drop.1 ⟨8, 8, [], 3⟩ ⟨0, 0⟩ [⟨1, 0⟩]).1 (by decide)

/-- Models `Worker.setState(state)`: the state afterwards is the argument (the
guard in the source only suppresses the change notification). -/
def Worker.setState (w : Worker) (s : WorkerState) : Worker := { w with state := s }

/-- Models `Worker.cleanup()` (part_005): releases the targeted resource's
harvest reservation when one is targeted, clears `targetResource`,
`targetStorage` and the current timer task, and goes to IDLE. The second
component is the released resource's state. -/
def Worker.cleanup (w : Worker) : Worker × Option Tree :=
  ({ w with
      targetResource := none
      targetStorage := none
      currentTask := none
      state := WorkerState.idle },
   w.targetResource.map Tree.releaseHarvester)

/-- Per-worker sample record of `WorkerManager.workerLastPositions`. -/
structure WorkerPerformanceData where
  x : Int
  y : Int
  unchangedCount : Nat
deriving Repr, DecidableEq

/-- Models `WorkerManager.STUCK_CHECK_INTERVAL` (ms). -/
def STUCK_CHECK_INTERVAL : Nat := 5000

/-- Models `WorkerManager.MAX_UNCHANGED_COUNT`. -/
def MAX_UNCHANGED_COUNT : Nat := 3

/-- Models `WorkerManager.updateWorkerPerformanceData(worker)`: first sample
initialises the record; later samples increment `unchangedCount` when the
worker moved less than 5 world units from the recorded position
(`Distance.Between < 5`, squared here), else re-anchor and reset. -/
def updateWorkerPerformanceData (lastPos : Option WorkerPerformanceData)
    (cx cy : Int) : WorkerPerformanceData :=
  match lastPos with
  | none => ⟨cx, cy, 0⟩
  | some lp =>
      if (cx - lp.x) ^ 2 + (cy - lp.y) ^ 2 < 25 then
        { lp with unchangedCount := lp.unchangedCount + 1 }
      else
        ⟨cx, cy, 0⟩

/-- Models `WorkerManager.handleStuckWorker(worker)`: at `unchangedCount ≥
MAX_UNCHANGED_COUNT`, force `worker.cleanup()`, set IDLE, and reset the
counter. -/
def handleStuckWorker (pd : WorkerPerformanceData) (w : Worker) :
    WorkerPerformanceData × Worker :=
  if pd.unchangedCount ≥ MAX_UNCHANGED_COUNT then
    ({ pd with unchangedCount := 0 }, ((w.cleanup).1).setState .idle)
  else
    (pd, w)

/-- One `checkStuckWorkers` pass for a single worker: sample its position,
update the performance record, then the stuck handling. -/
def checkStuckWorkerStep (s : Option WorkerPerformanceData × Worker) :
    Option WorkerPerformanceData × Worker :=
  let pd := updateWorkerPerformanceData s.1 s.2.x s.2.y
  let r := handleStuckWorker pd s.2
  (some r.1, r.2)

/-- Runs `n` consecutive stuck-check passes (one per 5-second interval). -/
def checkStuckWorkerRun (s : Option WorkerPerformanceData × Worker) : Nat →
    Option WorkerPerformanceData × Worker
  | 0 => s
  | n + 1 => checkStuckWorkerStep (checkStuckWorkerRun s n)

/-- Sampling at exactly the recorded position increments the counter. -/
theorem updateWorkerPerformanceData_same (cx cy : Int) (n : Nat) :
    updateWorkerPerformanceData (some ⟨cx, cy, n⟩) cx cy = ⟨cx, cy, n + 1⟩ := by
  simp [updateWorkerPerformanceData]

/-- Claim C6: a worker whose sampled position is unchanged for 3
consecutive stuck-check samples (counter anchored at its position) is
force-cleaned: whatever state it was in, it ends IDLE with no target
resource and no current task, the counter is reset, and the cleanup
releases the reservation of any targeted resource entity. -/
theorem C6_stuck_recovery (w : Worker) :
    (checkStuckWorkerRun (some ⟨w.x, w.y, 0⟩, w) 3).2.state = .idle
    ∧ (checkStuckWorkerRun (some ⟨w.x, w.y, 0⟩, w) 3).2.targetResource = none
    ∧ (checkStuckWorkerRun (some ⟨w.x, w.y, 0⟩, w) 3).2.currentTask = none
    ∧ (checkStuckWorkerRun (some ⟨w.x, w.y, 0⟩, w) 3).1 = some ⟨w.x, w.y, 0⟩
    ∧ (∀ t : Tree, w.targetResource = some t →
        (w.cleanup).2 = some t.releaseHarvester
        ∧ (t.releaseHarvester).currentHarvester = none) := by
  have h1 : checkStuckWorkerRun (some ⟨w.x, w.y, 0⟩, w) 1 = (some ⟨w.x, w.y, 1⟩, w) := by
    simp [checkStuckWorkerRun, checkStuckWorkerStep, updateWorkerPerformanceData_same,
      handleStuckWorker, MAX_UNCHANGED_COUNT]
  have h2 : checkStuckWorkerRun (some ⟨w.x, w.y, 0⟩, w) 2 = (some ⟨w.x, w.y, 2⟩, w) := by
    simp [checkStuckWorkerRun, checkStuckWorkerStep, updateWorkerPerformanceData_same,
      handleStuckWorker, MAX_UNCHANGED_COUNT, h1]
  have h3 : checkStuckWorkerRun (some ⟨w.x, w.y, 0⟩, w) 3 =
      (some ⟨w.x, w.y, 0⟩, ((w.cleanup).1).setState .idle) := by
    simp [checkStuckWorkerRun, checkStuckWorkerStep, updateWorkerPerformanceData_same,
      handleStuckWorker, MAX_UNCHANGED_COUNT, h2]
  refine ⟨?_, ?_, ?_, ?_, ?_⟩
  · rw [h3]; rfl
  · rw [h3]; rfl
  · rw [h3]; rfl
  · rw [h3]
  · intro t ht
    simp [Worker.cleanup, ht, Tree.releaseHarvester]

/-- Witness for C6 at a concrete input: a harvesting Lumberjack targeting
a reserved tree, stationary for 3 samples, ends IDLE with the tree's
reservation released. -/
theorem C6_stuck_recovery_witness :
    (checkStuckWorkerRun
      (some ⟨0, 0, 0⟩,
        { lumberjackWorker 0 0 with
            state := WorkerState.harvesting
            targetResource := some lumberTestTree }) 3).2.state = .idle
    ∧ (checkStuckWorkerRun
      (some ⟨0, 0, 0⟩,
        { lumberjackWorker 0 0 with
            state := WorkerState.harvesting
            targetResource := some lumberTestTree }) 3).2.targetResource = none
    ∧ (checkStuckWorkerRun
      (some ⟨0, 0, 0⟩,
        { lumberjackWorker 0 0 with
            state := WorkerState.harvesting
            targetResource := some lumberTestTree }) 3).2.currentTask = none
    ∧ (checkStuckWorkerRun
      (some ⟨0, 0, 0⟩,
        { lumberjackWorker 0 0 with
            state := WorkerState.harvesting
            targetResource := some lumberTestTree }) 3).1 = some ⟨0, 0, 0⟩
    ∧ (({ lumberjackWorker 0 0 with
            state := WorkerState.harvesting
            targetResource := some lumberTestTree } : Worker).cleanup).2 =
        some lumberTestTree.releaseHarvester
    ∧ lumberTestTree.releaseHarvester.currentHarvester = none := by
  have h := C6_stuck_recovery
    { lumberjackWorker 0 0 with
        state := WorkerState.harvesting
        targetResource := some lumberTestTree }
  exact ⟨h.1, h.2.1, h.2.2.1, h.2.2.2.1,
    (h.2.2.2.2 lumberTestTree rfl).1, (h.2.2.2.2 lumberTestTree rfl).2⟩

/-- A pathfinding grid, `number[][]` (0 walkable, 1 blocked). -/
abbrev Grid := List (List Nat)

/-- Models `MainScene.copyGrid(source)`: `source.map(row => [...row])`, an
element-wise copy; in this embedding, where updates are functional, it is
value-identity (the deep copy's point — that later writes do not reach
`baseGrid` — is captured by `rebuildPathfindingGrid` leaving `baseGrid`
unchanged). -/
def copyGrid (source : Grid) : Grid := source.map (fun row => row.map (fun v => v))

/-- Models `fullGrid[0].length`, the width used by the bounds checks. -/
def gridWidth (g : Grid) : Nat := (g.headD []).length

/-- Models `row[x] = 1`. -/
def rowSet1 : List Nat → Nat → List Nat
  | [], _ => []
  | _ :: tl, 0 => 1 :: tl
  | hd :: tl, n + 1 => hd :: rowSet1 tl n

/-- Models `g[y][x] = 1`. -/
def gridSet1 : Grid → Nat → Nat → Grid
  | [], _, _ => []
  | r :: rs, 0, x => rowSet1 r x :: rs
  | r :: rs, y + 1, x => r :: gridSet1 rs y x

/-- Models `row[x]` (0 when absent). -/
def rowGet : List Nat → Nat → Nat
  | [], _ => 0
  | v :: _, 0 => v
  | _ :: tl, n + 1 => rowGet tl n

/-- Models `g[y]` ([] when absent). -/
def gridRow : Grid → Nat → List Nat
  | [], _ => []
  | r :: _, 0 => r
  | _ :: rs, y + 1 => gridRow rs y

/-- Models `g[y][x]`. -/
def cellValue (g : Grid) (x y : Nat) : Nat := rowGet (gridRow g y) x

/-- The guarded write `if (gy >= 0 && gy < fullGrid.length && gx >= 0 &&
gx < fullGrid[0].length) fullGrid[gy][gx] = 1`. -/
def setBlocked (g : Grid) (gx gy : Int) : Grid :=
  if 0 ≤ gy ∧ gy < (g.length : Int) ∧ 0 ≤ gx ∧ gx < (gridWidth g : Int) then
    gridSet1 g gy.toNat gx.toNat
  else g

/-- All rows have the width of row 0 (grids are built rectangular by
`Array.from`). -/
def rectangularGrid (g : Grid) : Prop :=
  ∀ y : Nat, y < g.length → (gridRow g y).length = gridWidth g

theorem copyGrid_eq (g : Grid) : copyGrid g = g := by
  simp [copyGrid]

theorem rowSet1_length (l : List Nat) (n : Nat) : (rowSet1 l n).length = l.length := by
  induction l generalizing n with
  | nil => rfl
  | cons hd tl ih => cases n with
    | zero => rfl
    | succ m => simpa [rowSet1] using ih m

theorem gridSet1_length (g : Grid) (y x : Nat) : (gridSet1 g y x).length = g.length := by
  induction g generalizing y with
  | nil => rfl
  | cons r rs ih => cases y with
    | zero => rfl
    | succ m => simpa [gridSet1] using ih m

theorem gridWidth_gridSet1 (g : Grid) (y x : Nat) :
    gridWidth (gridSet1 g y x) = gridWidth g := by
  cases g with
  | nil => rfl
  | cons r rs => cases y with
    | zero => simp [gridSet1, gridWidth, rowSet1_length]
    | succ m => rfl

theorem gridRow_gridSet1_eq (g : Grid) (y x : Nat) (hy : y < g.length) :
    gridRow (gridSet1 g y x) y = rowSet1 (gridRow g y) x := by
  induction g generalizing y with
  | nil => simp at hy
  | cons r rs ih => cases y with
    | zero => rfl
    | succ m => exact ih m (by simpa using hy)

theorem gridRow_gridSet1_ne (g : Grid) (y x z : Nat) (h : z ≠ y) :
    gridRow (gridSet1 g y x) z = gridRow g z := by
  induction g generalizing y z with
  | nil => rfl
  | cons r rs ih =>
      cases y with
      | zero => cases z with
        | zero => exact absurd rfl h
        | succ m => rfl
      | succ m => cases z with
        | zero => rfl
        | succ k => exact ih m k (by omega)

theorem rowGet_rowSet1_eq (l : List Nat) (n : Nat) (h : n < l.length) :
    rowGet (rowSet1 l n) n = 1 := by
  induction l generalizing n with
  | nil => simp at h
  | cons hd tl ih => cases n with
    | zero => rfl
    | succ m => exact ih m (by simpa using h)

theorem rowGet_rowSet1_ne (l : List Nat) (n m : Nat) (h : m ≠ n) :
    rowGet (rowSet1 l n) m = rowGet l m := by
  induction l generalizing n m with
  | nil => rfl
  | cons hd tl ih =>
      cases n with
      | zero => cases m with
        | zero => exact absurd rfl h
        | succ k => rfl
      | succ k => cases m with
        | zero => rfl
        | succ j => exact ih k j (by omega)

theorem gridRow_length (g : Grid) (y : Nat) (hrect : rectangularGrid g)
    (hy : y < g.length) : (gridRow g y).length = gridWidth g := hrect y hy

theorem rectangular_gridSet1 (g : Grid) (y x : Nat) (hrect : rectangularGrid g) :
    rectangularGrid (gridSet1 g y x) := by
  intro z hz
  rw [gridSet1_length] at hz
  rw [gridWidth_gridSet1]
  by_cases hzy : z = y
  · subst hzy
    rw [gridRow_gridSet1_eq g z x hz, rowSet1_length]
    exact hrect z hz
  · rw [gridRow_gridSet1_ne g y x z hzy]
    exact hrect z hz

theorem length_setBlocked (g : Grid) (a b : Int) : (setBlocked g a b).length = g.length := by
  unfold setBlocked; split
  · exact gridSet1_length ..
  · rfl

theorem gridWidth_setBlocked (g : Grid) (a b : Int) :
    gridWidth (setBlocked g a b) = gridWidth g := by
  unfold setBlocked; split
  · exact gridWidth_gridSet1 ..
  · rfl

theorem rectangular_setBlocked (g : Grid) (a b : Int) (hrect : rectangularGrid g) :
    rectangularGrid (setBlocked g a b) := by
  unfold setBlocked; split
  · exact rectangular_gridSet1 _ _ _ hrect
  · exact hrect

/-- Reading a cell after one guarded write: the written cell reads 1, all
others are unchanged, and out-of-bounds writes change nothing. -/
theorem cell_setBlocked (g : Grid) (a b : Int) (x y : Nat)
    (hrect : rectangularGrid g) (hy : y < g.length) (hx : x < gridWidth g) :
    cellValue (setBlocked g a b) x y =
      if a = (x : Int) ∧ b = (y : Int) then 1 else cellValue g x y := by
  unfold setBlocked
  split
  · rename_i hin
    obtain ⟨h1, h2, h3, h4⟩ := hin
    unfold cellValue
    by_cases hby : b = (y : Int)
    · have hbn : b.toNat = y := by omega
      rw [hbn, gridRow_gridSet1_eq g y a.toNat hy]
      by_cases hax : a = (x : Int)
      · have han : a.toNat = x := by omega
        rw [if_pos ⟨hax, hby⟩, han]
        exact rowGet_rowSet1_eq _ x (by rw [gridRow_length g y hrect hy]; exact hx)
      · have han : x ≠ a.toNat := by omega
        rw [if_neg (by tauto)]
        exact rowGet_rowSet1_ne _ _ _ han
    · have hbn : y ≠ b.toNat := by omega
      rw [if_neg (by tauto), gridRow_gridSet1_ne g b.toNat a.toNat y hbn]
  · rename_i hout
    rw [if_neg]
    intro ⟨hax, hby⟩
    exact hout (by subst hax; subst hby; exact ⟨by omega, by omega, by omega, by omega⟩)

/-- A sequence of guarded writes, one per listed tile coordinate. -/
def markAll (g : Grid) (ps : List (Int × Int)) : Grid :=
  ps.foldl (fun acc p => setBlocked acc p.1 p.2) g

theorem markAll_nil (g : Grid) : markAll g [] = g := rfl

theorem markAll_cons (g : Grid) (p : Int × Int) (ps : List (Int × Int)) :
    markAll g (p :: ps) = markAll (setBlocked g p.1 p.2) ps := rfl

theorem length_markAll (g : Grid) (ps : List (Int × Int)) :
    (markAll g ps).length = g.length := by
  induction ps generalizing g with
  | nil => rfl
  | cons p ps ih => rw [markAll_cons, ih, length_setBlocked]

theorem gridWidth_markAll (g : Grid) (ps : List (Int × Int)) :
    gridWidth (markAll g ps) = gridWidth g := by
  induction ps generalizing g with
  | nil => rfl
  | cons p ps ih => rw [markAll_cons, ih, gridWidth_setBlocked]

theorem rectangular_markAll (g : Grid) (ps : List (Int × Int))
    (hrect : rectangularGrid g) : rectangularGrid (markAll g ps) := by
  induction ps generalizing g with
  | nil => exact hrect
  | cons p ps ih => exact ih _ (rectangular_setBlocked _ _ _ hrect)

/-- A cell reads 1 after a sequence of writes iff some write targeted it
or it already read 1. -/
theorem cell_markAll (g : Grid) (ps : List (Int × Int)) (x y : Nat)
    (hrect : rectangularGrid g) (hy : y < g.length) (hx : x < gridWidth g) :
    cellValue (markAll g ps) x y =
      if ((x : Int), (y : Int)) ∈ ps then 1 else cellValue g x y := by
  induction ps generalizing g with
  | nil => simp [markAll_nil]
  | cons p ps ih =>
      rw [markAll_cons]
      rw [ih (setBlocked g p.1 p.2) (rectangular_setBlocked _ _ _ hrect)
        (by rw [length_setBlocked]; exact hy) (by rw [gridWidth_setBlocked]; exact hx)]
      rw [cell_setBlocked g p.1 p.2 x y hrect hy hx]
      by_cases hmem : ((x : Int), (y : Int)) ∈ ps
      · simp [hmem]
      · by_cases hp : p.1 = (x : Int) ∧ p.2 = (y : Int)
        · have : p = ((x : Int), (y : Int)) := Prod.ext hp.1 hp.2
          simp [this, hmem]
        · have hne : ¬(((x : Int), (y : Int)) = p) := by
            intro hc; exact hp ⟨by rw [← hc], by rw [← hc]⟩
          simp only [List.mem_cons, hmem, or_false]
          simp [hp, hne]

/-- Models `Tree.getTreeTilePosition()`: `worldToTile(x, y)` with tile size 16. -/
def Tree.getTreeTilePosition (t : Tree) : Int × Int := (t.x.fdiv 16, t.y.fdiv 16)

/-- Models `Tree.isBlockingPath()`: trees and stumps always block the path. -/
def Tree.isBlockingPath (_ : Tree) : Bool := true

/-- Models `MainScene.tileWidth`. -/
def tileWidth : Int := 16

/-- Models `MainScene.tileHeight`. -/
def tileHeight : Int := 16

/-- A placed building: world position and the sub-map tiles flagged as
colliding (`collides` property or collision shapes), as local tile
offsets. -/
structure TiledBuilding where
  x : Int
  y : Int
  collidingTiles : List (Int × Int)
deriving Repr, DecidableEq

/-- Scene state read by `rebuildPathfindingGrid`: the base collision grid,
the placed buildings, the resource entities, and the grid last handed to
EasyStar (`easyStar.setGrid`). -/
structure MainScene where
  baseGrid : Grid
  buildings : List TiledBuilding
  trees : List Tree
  easyStarGrid : Grid
deriving Repr, DecidableEq

/-- The per-building loop body of the rebuild: each colliding sub-map tile
offset into world-grid coordinates and marked. -/
def buildingOverlay (g : Grid) (b : TiledBuilding) : Grid :=
  b.collidingTiles.foldl
    (fun acc t => setBlocked acc (b.x.fdiv tileWidth + t.1) (b.y.fdiv tileHeight + t.2)) g

/-- Models `MainScene.rebuildPathfindingGrid()`: deep copy of `baseGrid`, then
building collisions, then resource-entity tiles for entities whose
`isBlockingPath()` is set; the result goes to EasyStar. -/
def rebuildPathfindingGrid (s : MainScene) : MainScene :=
  let fullGrid := copyGrid s.baseGrid
  let afterBuildings := s.buildings.foldl buildingOverlay fullGrid
  let afterTrees := s.trees.foldl
    (fun acc tree =>
      if tree.isBlockingPath then
        setBlocked acc tree.getTreeTilePosition.1 tree.getTreeTilePosition.2
      else acc) afterBuildings
  { s with easyStarGrid := afterTrees }

/-- Runs `n` consecutive rebuilds. -/
def rebuildRun (s : MainScene) : Nat → MainScene
  | 0 => s
  | n + 1 => rebuildPathfindingGrid (rebuildRun s n)

/-- The world-grid tiles a building marks. -/
def TiledBuilding.worldTiles (b : TiledBuilding) : List (Int × Int) :=
  b.collidingTiles.map (fun t => (b.x.fdiv tileWidth + t.1, b.y.fdiv tileHeight + t.2))

/-- The tiles the resource-entity loop marks. -/
def treeTiles (ts : List Tree) : List (Int × Int) :=
  ts.filterMap (fun t => if t.isBlockingPath then some t.getTreeTilePosition else none)

theorem buildingOverlay_eq_markAll (g : Grid) (b : TiledBuilding) :
    buildingOverlay g b = markAll g b.worldTiles := by
  unfold buildingOverlay TiledBuilding.worldTiles markAll
  rw [List.foldl_map]

theorem buildings_fold_eq_markAll (g : Grid) (bs : List TiledBuilding) :
    bs.foldl buildingOverlay g = markAll g (bs.flatMap TiledBuilding.worldTiles) := by
  induction bs generalizing g with
  | nil => rfl
  | cons b bs ih =>
      rw [List.foldl_cons, ih, buildingOverlay_eq_markAll]
      unfold markAll
      rw [List.flatMap_cons, List.foldl_append]

theorem trees_fold_eq_markAll (g : Grid) (ts : List Tree) :
    ts.foldl (fun acc tree =>
      if tree.isBlockingPath then
        setBlocked acc tree.getTreeTilePosition.1 tree.getTreeTilePosition.2
      else acc) g = markAll g (treeTiles ts) := by
  induction ts generalizing g with
  | nil => rfl
  | cons t ts ih =>
      rw [List.foldl_cons, ih]
      unfold treeTiles
      by_cases hb : t.isBlockingPath
      · simp only [hb, if_true, List.filterMap_cons]
        exact (markAll_cons g _ _).symm
      · simp only [List.filterMap_cons, hb]
        simp

/-- The rebuilt matrix is the base grid with one write per building tile
and per blocking resource tile. -/
theorem rebuild_eq_markAll (s : MainScene) :
    (rebuildPathfindingGrid s).easyStarGrid =
      markAll s.baseGrid
        (s.buildings.flatMap TiledBuilding.worldTiles ++ treeTiles s.trees) := by
  show (s.trees.foldl _ (s.buildings.foldl buildingOverlay (copyGrid s.baseGrid))) = _
  rw [copyGrid_eq, buildings_fold_eq_markAll, trees_fold_eq_markAll]
  unfold markAll
  rw [List.foldl_append]

/-- What the code blocks: base-grid blocked cells, building colliding
tiles offset to world coordinates, and tiles of resource entities whose
`isBlockingPath()` holds (destroyed or not). -/
def blockedByCode (s : MainScene) (x y : Nat) : Prop :=
  cellValue s.baseGrid x y = 1
  ∨ (∃ b ∈ s.buildings, ((x : Int), (y : Int)) ∈ b.worldTiles)
  ∨ (∃ t ∈ s.trees, t.isBlockingPath = true ∧
      ((x : Int), (y : Int)) = t.getTreeTilePosition)

/-- What the claim says is blocked — as (b) and the code, except that the
resource clause additionally requires the entity to be non-destroyed. -/
def blockedBySpecClaim (s : MainScene) (x y : Nat) : Prop :=
  cellValue s.baseGrid x y = 1
  ∨ (∃ b ∈ s.buildings, ((x : Int), (y : Int)) ∈ b.worldTiles)
  ∨ (∃ t ∈ s.trees, t.isDestroyed = false ∧ t.isBlockingPath = true ∧
      ((x : Int), (y : Int)) = t.getTreeTilePosition)

/-- A 3×3 open base grid with a single destroyed tree (a stump) standing
at tile (1,1) and no buildings. -/
def stumpScene : MainScene :=
  { baseGrid := [[0, 0, 0], [0, 0, 0], [0, 0, 0]],
    buildings := [],
    trees := [{ x := 16, y := 16, isDestroyed := true, isBeingHit := false,
                currentHarvester := none, currentHealth := 0,
                config := defaultTreeConfig }],
    easyStarGrid := [] }

/-- Claim C4: the rebuild is idempotent — rebuilding twice with no
intervening state change yields the same matrix — and deterministic in the
building/resource/base state (the previous EasyStar grid is irrelevant). -/
theorem C4_grid_rebuild_idempotent :
    (∀ s : MainScene,
      (rebuildPathfindingGrid (rebuildPathfindingGrid s)).easyStarGrid =
        (rebuildPathfindingGrid s).easyStarGrid)
    ∧ (∀ s s' : MainScene, s.baseGrid = s'.baseGrid → s.buildings = s'.buildings →
        s.trees = s'.trees →
        (rebuildPathfindingGrid s).easyStarGrid = (rebuildPathfindingGrid s').easyStarGrid) := by
  constructor
  · intro s; rfl
  · intro s s' h1 h2 h3
    rw [rebuild_eq_markAll, rebuild_eq_markAll, h1, h2, h3]

/-- Witness for C4 at a concrete input: two scenes differing only in their
stale EasyStar grid rebuild identically. -/
theorem C4_grid_rebuild_idempotent_witness :
    (rebuildPathfindingGrid
      ({ baseGrid := [[0]], buildings := [], trees := [], easyStarGrid := [] }
        : MainScene)).easyStarGrid =
    (rebuildPathfindingGrid
      ({ baseGrid := [[0]], buildings := [], trees := [], easyStarGrid := [[1]] }
        : MainScene)).easyStarGrid :=
  C4_grid_rebuild_idempotent.2
    { baseGrid := [[0]], buildings := [], trees := [], easyStarGrid := [] }
    { baseGrid := [[0]], buildings := [], trees := [], easyStarGrid := [[1]] }
    rfl rfl rfl

/-- Claim C9: the rebuild never mutates the scene's base grid (or the
building/tree lists), and iterating rebuilds never accumulates blocked
tiles into the base grid seen by later rebuilds. -/
theorem C9_base_grid_unchanged (s : MainScene) :
    (rebuildPathfindingGrid s).baseGrid = s.baseGrid
    ∧ (rebuildPathfindingGrid s).buildings = s.buildings
    ∧ (rebuildPathfindingGrid s).trees = s.trees
    ∧ (∀ n : Nat, (rebuildRun s n).baseGrid = s.baseGrid) := by
  refine ⟨rfl, rfl, rfl, ?_⟩
  intro n
  induction n with
  | zero => rfl
  | succ m ih => simpa [rebuildRun] using ih

/-- Claim C5 as stated is false: a destroyed resource entity (a stump)
still blocks — `isBlockingPath()` holds for trees and stumps alike — so
its tile is marked even though the claim's overlay, which requires the
entity to be non-destroyed, leaves it walkable. Concrete scene: a 3×3
open base grid, no buildings, one destroyed tree at tile (1,1). -/
theorem C5_resource_overlay_counterexample :
    cellValue (rebuildPathfindingGrid stumpScene).easyStarGrid 1 1 = 1
    ∧ ¬ blockedBySpecClaim stumpScene 1 1 := by
  constructor
  · decide
  · unfold blockedBySpecClaim
    decide

/-- Claim C5, amended: after `rebuildPathfindingGrid`, a cell of the
matrix is blocked exactly when the base grid blocks it, a placed
building's colliding footprint tile offset into world coordinates covers
it, or a resource entity that blocks path — destroyed or not, since
stumps block too — sits on it. -/
theorem C5_resource_overlay_amended (s : MainScene) (x y : Nat)
    (hrect : rectangularGrid s.baseGrid) (hy : y < s.baseGrid.length)
    (hx : x < gridWidth s.baseGrid) :
    cellValue (rebuildPathfindingGrid s).easyStarGrid x y = 1 ↔ blockedByCode s x y := by
  rw [rebuild_eq_markAll, cell_markAll _ _ _ _ hrect hy hx]
  unfold blockedByCode
  by_cases hmem : ((x : Int), (y : Int)) ∈
      (s.buildings.flatMap TiledBuilding.worldTiles ++ treeTiles s.trees)
  · rw [if_pos hmem]
    simp only [List.mem_append, List.mem_flatMap] at hmem
    constructor
    · intro _
      rcases hmem with ⟨b, hb, hbt⟩ | htree
      · exact Or.inr (Or.inl ⟨b, hb, hbt⟩)
      · unfold treeTiles at htree
        simp only [List.mem_filterMap] at htree
        obtain ⟨t, ht, htt⟩ := htree
        by_cases hblock : t.isBlockingPath
        · rw [if_pos hblock] at htt
          exact Or.inr (Or.inr ⟨t, ht, hblock, (Option.some.inj htt).symm⟩)
        · rw [if_neg hblock] at htt; cases htt
    · intro _; rfl
  · rw [if_neg hmem]
    simp only [List.mem_append, List.mem_flatMap] at hmem
    push_neg at hmem
    constructor
    · intro hbase; exact Or.inl hbase
    · intro hcases
      rcases hcases with hbase | ⟨b, hb, hbt⟩ | ⟨t, ht, hblock, htile⟩
      · exact hbase
      · exact absurd hbt (by intro hc; exact hmem.1 b hb hc)
      · exfalso
        apply hmem.2
        unfold treeTiles
        simp only [List.mem_filterMap]
        exact ⟨t, ht, by rw [if_pos hblock, htile]⟩

/-- Witness for the amended C5 at a concrete input: in the stump scene the
blocked cell (1,1) satisfies the code-side overlay description. -/
theorem C5_resource_overlay_amended_witness :
    blockedByCode stumpScene 1 1 :=
  (C5_resource_overlay_amended stumpScene 1 1
    (by intro y hy; have h3 : y < 3 := hy; interval_cases y <;> rfl)
    (by decide) (by decide)).mp
    (by decide)

/-- A persisted JSON value as the reload validation sees it: a finite
number, the number `NaN`, or something of another `typeof`. -/
inductive JsValue where
  | num (n : Int)
  | nan
  | other
deriving Repr, DecidableEq

/-- Models `typeof v === 'number'` (true of `NaN` too). -/
def JsValue.typeofIsNumber : JsValue → Bool
  | .num _ => true
  | .nan => true
  | .other => false

/-- Models `isNaN(v)`; on non-numbers the source never evaluates this (the
`typeof` conjunct short-circuits), so the `other` case is arbitrary. -/
def JsValue.isNaNCheck : JsValue → Bool
  | .nan => true
  | .num _ => false
  | .other => true

/-- One `WorkerSaveData` entry, reduced to the fields the validation
reads. -/
structure WorkerSaveData where
  type : String
  posX : JsValue
  posY : JsValue
deriving Repr, DecidableEq

/-- The worker types registered in `WorkerRegistry` (only the
Lumberjack). -/
def validWorkerTypes : List String := ["lumberjack"]

/-- The filter of `WorkerManager.loadState`:
`isValidWorkerType(type) && typeof x === 'number' && typeof y === 'number'
&& !isNaN(x) && !isNaN(y)`. -/
def isValidWorkerEntry (d : WorkerSaveData) : Bool :=
  validWorkerTypes.contains d.type &&
    d.posX.typeofIsNumber && d.posY.typeofIsNumber &&
    !d.posX.isNaNCheck && !d.posY.isNaNCheck

/-- Models `WorkerManager.loadState()`: `none` models a blob `JSON.parse` rejects
(the catch replays nothing and removes the storage key — second
component); a parsed list is filtered before replay. Result: the entries
replayed through `createWorker`, and whether the storage was removed. -/
def workerLoadState : Option (List WorkerSaveData) → List WorkerSaveData × Bool
  | none => ([], true)
  | some entries => (entries.filter isValidWorkerEntry, false)

/-- One `StoredBuilding` entry (`{type, x, y}`). -/
structure StoredBuilding where
  type : String
  x : JsValue
  y : JsValue
deriving Repr, DecidableEq

/-- Models `BuildingManager.loadState()`: `none` models a blob `JSON.parse`
rejects (the catch replays nothing); a parsed list is replayed through
`placeBuilding` entry by entry, with no per-entry validation. -/
def buildingLoadState : Option (List StoredBuilding) → List StoredBuilding
  | none => []
  | some entries => entries

/-- A building entry with a NaN x coordinate. -/
def nanBuildingEntry : StoredBuilding := { type := "house", x := .nan, y := .num 0 }

/-- Claim C7 as stated is false for the building list: an entry with a NaN
coordinate — invalid by the claim's own criterion — is replayed by
`BuildingManager.loadState`, which filters nothing. -/
theorem C7_reload_validation_counterexample :
    buildingLoadState (some [nanBuildingEntry]) = [nanBuildingEntry]
    ∧ nanBuildingEntry.x.isNaNCheck = true :=
  ⟨rfl, rfl⟩

/-- Claim C7, amended: on reload the worker list is filtered — an entry is
replayed iff it was stored and passes the type/number/NaN validation — and
a wholesale-corrupt worker blob is discarded (nothing replayed, storage
key removed); the building list discards a wholesale-corrupt blob (nothing
replayed) but replays every parsed entry without per-entry validation. -/
theorem C7_reload_validation_amended :
    (∀ (entries : List WorkerSaveData) (d : WorkerSaveData),
      d ∈ (workerLoadState (some entries)).1 ↔ d ∈ entries ∧ isValidWorkerEntry d = true)
    ∧ workerLoadState none = ([], true)
    ∧ buildingLoadState none = []
    ∧ (∀ entries : List StoredBuilding, buildingLoadState (some entries) = entries) := by
  refine ⟨?_, rfl, rfl, fun _ => rfl⟩
  intro entries d
  simp [workerLoadState, List.mem_filter]

end Game
